import Mathlib

set_option autoImplicit false

/-!
Shallow embedding of the authentication / authorization core of the
`nextjs-dashboard-template` repository:

* the six-label role gate `requireRole`
  (src/sifrex-frontend/src/lib/auth/dal.ts),
* the development-bypass guard and session resolver `verifySession`
  (src/sifrex-frontend/src/lib/auth/dal.ts),
* the secure data-fetch template `getSecureData` (same file),
* the in-memory rate limiter `checkRateLimit`
  (src/src/template-frontend/src/lib/rate-limiting.ts),
* the credentials `authorize` callback (src/sifrex-frontend/auth.config.ts),
* the edge middleware (the default auth middleware of `middleware.ts`,
  locale redirection, header stripping and security response headers).

JavaScript strings are Lean `String`s; `undefined`-able environment variables
and object fields are `Option String`; JavaScript truthiness of a string
(falsy iff `undefined` or `""`) is made explicit.  Stateful pieces (the
rate-limit store) are explicit state passing.  `redirect(...)` in Next.js
throws a control-flow exception, so functions that may redirect return an
`Except`-style sum.
-/

/-! ### JavaScript string helpers -/

/-- Truthiness of a possibly-undefined JavaScript string:
falsy iff `undefined` or the empty string. -/
def envTruthy : Option String → Bool
  | none => false
  | some s => s ≠ ""

/-- JavaScript `a || d` for a possibly-undefined string `a`:
falls back to `d` when `a` is `undefined` or `""`. -/
def jsOr (o : Option String) (d : String) : String :=
  match o with
  | none => d
  | some s => if s = "" then d else s

/-- JavaScript `s.includes(sub)` (substring containment). -/
def strIncludes (s sub : String) : Bool :=
  decide (sub.data <:+: s.data)

/-- JavaScript `o?.includes(sub)` for a possibly-undefined string:
`undefined` (falsy) when `o` is `undefined`. -/
def optIncludes (o : Option String) (sub : String) : Bool :=
  match o with
  | none => false
  | some s => strIncludes s sub

/-- JavaScript `s.startsWith(pre)`. -/
def strStartsWith (s pre : String) : Bool :=
  pre.data.isPrefixOf s.data

/-! ### Roles and the role gate (src/sifrex-frontend/src/lib/auth/dal.ts) -/

/-- The six role labels of the sifrex frontend (`Role` enum of the Prisma
schema, as used in `requireRole`). -/
inductive Role where
  | BASIC
  | PLUS
  | PREMIUM
  | PREMIUM_PLUS
  | ADMIN
  | SUPER_ADMIN
deriving DecidableEq

/-- The numeric rank of a role in the fixed `roleHierarchy` table of
`requireRole` (dal.ts lines 129-136). -/
def roleRank : Role → Nat
  | .BASIC => 0
  | .PLUS => 1
  | .PREMIUM => 2
  | .PREMIUM_PLUS => 3
  | .ADMIN => 4
  | .SUPER_ADMIN => 5

/-- The string label of each role, as it appears as a key of
`roleHierarchy`. -/
def roleLabel : Role → String
  | .BASIC => "BASIC"
  | .PLUS => "PLUS"
  | .PREMIUM => "PREMIUM"
  | .PREMIUM_PLUS => "PREMIUM_PLUS"
  | .ADMIN => "ADMIN"
  | .SUPER_ADMIN => "SUPER_ADMIN"

/-- Recognise a session-role string as one of the six labels
(the `Object.keys(roleHierarchy).includes(userRole)` check). -/
def roleOfLabel (s : String) : Option Role :=
  if s = "BASIC" then some .BASIC
  else if s = "PLUS" then some .PLUS
  else if s = "PREMIUM" then some .PREMIUM
  else if s = "PREMIUM_PLUS" then some .PREMIUM_PLUS
  else if s = "ADMIN" then some .ADMIN
  else if s = "SUPER_ADMIN" then some .SUPER_ADMIN
  else none

/-- Lookup in the `roleHierarchy` record: `some rank` for a recognised
label, `none` for an unknown one. -/
def roleHierarchy (s : String) : Option Nat :=
  (roleOfLabel s).map roleRank

/-- Outcome of the role gate: `ok` models `return true`; `redirect p`
models the control-flow exit `redirect(p)`. -/
inductive GateResult where
  | ok
  | redirect (path : String)
deriving DecidableEq

/-- The role gate `requireRole` (dal.ts lines 126-150), given the
`userRole` string destructured from the already-resolved session.
Unknown session role: redirect to `/unauthorized`; session rank below
required rank: redirect to `/unauthorized`; otherwise `return true`. -/
def requireRole (userRole : String) (requiredRole : Role) : GateResult :=
  match roleHierarchy userRole with
  | none => .redirect "/unauthorized"
  | some sessionRank =>
      if sessionRank < roleRank requiredRole then .redirect "/unauthorized"
      else .ok

/-! ### Rate limiting (src/src/template-frontend/src/lib/rate-limiting.ts) -/

/-- `RATE_LIMIT_WINDOW = 15 * 60 * 1000` milliseconds. -/
def RATE_LIMIT_WINDOW : Nat := 15 * 60 * 1000

/-- `MAX_ATTEMPTS = 5`. -/
def MAX_ATTEMPTS : Nat := 5

/-- One entry of the in-memory store: attempt count and window reset time. -/
structure RateLimitEntry where
  count : Nat
  resetTime : Nat
deriving DecidableEq

/-- The result record of `checkRateLimit`. -/
structure RateLimitResult where
  allowed : Bool
  remaining : Nat
  resetTime : Nat
deriving DecidableEq

/-- The in-memory store, keyed by `auth:<identifier>` strings. -/
def RLStore : Type := String → Option RateLimitEntry

/-- The store key for an identifier (`const key = auth:identifier`). -/
def rlKey (identifier : String) : String := "auth:" ++ identifier

/-- `checkRateLimit(identifier)` at current time `now`, with the global
store passed explicitly.  Mirrors rate-limiting.ts lines 17-49: an
existing entry whose `resetTime < now` is deleted and, like a missing
entry, re-initialised to `count = 0, resetTime = now + RATE_LIMIT_WINDOW`
(deletion followed by initialisation is fused into one step here); the
count is then incremented unconditionally; `allowed = count <= MAX_ATTEMPTS`;
`remaining = Math.max(0, MAX_ATTEMPTS - count)` (truncated subtraction on
`Nat` is exactly the `Math.max(0, ...)` of the source). -/
def checkRateLimit (identifier : String) (now : Nat) (store : RLStore) :
    RateLimitResult × RLStore :=
  let key := rlKey identifier
  let cur : RateLimitEntry :=
    match store key with
    | some e => if e.resetTime < now then ⟨0, now + RATE_LIMIT_WINDOW⟩ else e
    | none => ⟨0, now + RATE_LIMIT_WINDOW⟩
  let newEntry : RateLimitEntry := ⟨cur.count + 1, cur.resetTime⟩
  (⟨newEntry.count ≤ MAX_ATTEMPTS, MAX_ATTEMPTS - newEntry.count,
    newEntry.resetTime⟩,
   fun k => if k = key then some newEntry else store k)

/-- Run `checkRateLimit` for one identifier at a list of successive call
times, threading the store; returns the list of results and final store. -/
def rateLimitRun (identifier : String) :
    List Nat → RLStore → List RateLimitResult × RLStore
  | [], s => ([], s)
  | t :: ts, s =>
      let step := checkRateLimit identifier t s
      let rest := rateLimitRun identifier ts step.2
      (step.1 :: rest.1, rest.2)

/-! ### Session resolver (src/sifrex-frontend/src/lib/auth/dal.ts) -/

/-- The `process.env` fields scrutinised by the data access layer.
Each is a JavaScript environment variable: a string or `undefined`. -/
structure ProcEnv where
  nodeEnv : Option String
  devDalBypass : Option String
  databaseUrl : Option String
  vercelEnv : Option String
  railwayEnvironment : Option String
  herokuAppName : Option String
  devUserId : Option String
  devUserEmail : Option String
  devUserRole : Option String
deriving DecidableEq

/-- The `isDevelopmentBypass` guard of `verifySession` (dal.ts lines 26-33):
`process.env.NODE_ENV === 'development' && process.env.DEV_DAL_BYPASS ===
'true' && process.env.DATABASE_URL?.includes('localhost') &&
!process.env.VERCEL_ENV && !process.env.RAILWAY_ENVIRONMENT &&
!process.env.HEROKU_APP_NAME`. -/
def isDevelopmentBypass (e : ProcEnv) : Bool :=
  (e.nodeEnv == some "development") &&
  (e.devDalBypass == some "true") &&
  optIncludes e.databaseUrl "localhost" &&
  !envTruthy e.vercelEnv &&
  !envTruthy e.railwayEnvironment &&
  !envTruthy e.herokuAppName

/-- The user object inside a NextAuth session, with the defensively
accessed `session?.user?.id`. -/
structure AuthUser where
  id : Option String
  email : String
  role : String
deriving DecidableEq

/-- A NextAuth session as returned by `await auth()`; `user` is accessed
with optional chaining in the source. -/
structure AuthSession where
  user : Option AuthUser
deriving DecidableEq

/-- The record returned by a successful `verifySession`. -/
structure SessionRecord where
  userId : String
  userEmail : String
  userRole : String
deriving DecidableEq

/-- `verifySession` (dal.ts lines 21-66).  The `Except` error carries the
redirect path (`redirect(...)` throws, terminating the call).  Bypass
branch: synthetic identity from configuration with JavaScript `||`
fallbacks.  Normal branch: redirect to `/es/signin` when
`!session?.user?.id` (absent session, absent user, absent or empty id);
otherwise the session's id, email and role. -/
def verifySession (e : ProcEnv) (session : Option AuthSession) :
    Except String SessionRecord :=
  if isDevelopmentBypass e then
    .ok ⟨jsOr e.devUserId "dev-dal-user-id-default",
         jsOr e.devUserEmail "dev-dal-default@example.com",
         jsOr e.devUserRole "ADMIN"⟩
  else
    match session with
    | none => .error "/es/signin"
    | some sess =>
        match sess.user with
        | none => .error "/es/signin"
        | some u =>
            match u.id with
            | none => .error "/es/signin"
            | some uid =>
                if uid = "" then .error "/es/signin"
                else .ok ⟨uid, u.email, u.role⟩

/-! ### Secure data-fetch template (dal.ts lines 196-207) -/

/-- How a `getSecureData` call can terminate abnormally: the redirect
thrown by `verifySession` (outside the `try` block, so it propagates), or
an `Error` thrown by `getSecureData` itself. -/
inductive DalFailure where
  | redirectTo (path : String)
  | thrown (msg : String)
deriving DecidableEq

/-- The `try { return await dataFetcher(userId) } catch { throw new
Error('Data access denied') }` block, applied to the fetcher's outcome. -/
def secureWrap {α : Type} (r : Except String α) : Except DalFailure α :=
  match r with
  | .ok v => .ok v
  | .error _ => .error (.thrown "Data access denied")

/-- `getSecureData(dataFetcher)` (dal.ts lines 196-207): awaits
`verifySession` first (its redirect is thrown outside the `try` block and
so short-circuits the whole call), then runs the fetcher on the resolved
`userId` inside a `try` that converts any thrown error into the generic
`Error('Data access denied')`. -/
def getSecureData {α : Type} (e : ProcEnv) (session : Option AuthSession)
    (dataFetcher : String → Except String α) : Except DalFailure α :=
  match verifySession e session with
  | .error path => .error (.redirectTo path)
  | .ok s =>
      match dataFetcher s.userId with
      | .ok v => .ok v
      | .error _ => .error (.thrown "Data access denied")

/-! ### Credentials `authorize` callback (src/sifrex-frontend/auth.config.ts) -/

/-- The identity record selected from the user table by `authorize`
(id, email, name, password, role). -/
structure DbUser where
  id : String
  email : String
  name : Option String
  password : Option String
  role : String
deriving DecidableEq

/-- The user object returned by a successful `authorize` — the identity's
public fields, never the hash. -/
structure PublicUser where
  id : String
  email : String
  name : Option String
  role : String
deriving DecidableEq

/-- Raw form credentials handed to `authorize`. -/
structure Credentials where
  email : String
  password : String
deriving DecidableEq

/-- `authorize(credentials)` (auth.config.ts lines 33-97), with the
external pieces passed as explicit capabilities: `safeParse` is the Zod
`SigninFormSchema.safeParse` (returning the parsed email/password on
success), `bcryptCompare` is `bcrypt.compare`, `findUserByEmail` is the
`prisma.user.findUnique` lookup, and the rate-limit store and current
time are threaded explicitly.  Returns the NextAuth user (or `null`) and
the updated rate-limit store.  Mirrors the source order: parse, rate
limit, lookup (`!user || !user.password` — an absent or empty hash fails),
hash comparison, public-field projection. -/
def authorize (safeParse : Credentials → Option (String × String))
    (bcryptCompare : String → String → Bool)
    (findUserByEmail : String → Option DbUser)
    (now : Nat) (store : RLStore) (credentials : Credentials) :
    Option PublicUser × RLStore :=
  match safeParse credentials with
  | none => (none, store)
  | some (email, password) =>
      let rl := checkRateLimit email now store
      if !rl.1.allowed then (none, rl.2)
      else
        match findUserByEmail email with
        | none => (none, rl.2)
        | some user =>
            match user.password with
            | none => (none, rl.2)
            | some hash =>
                if hash = "" then (none, rl.2)
                else if bcryptCompare password hash then
                  (some ⟨user.id, user.email, user.name, user.role⟩, rl.2)
                else (none, rl.2)

/-! ### Edge middleware (`middleware.ts`, src/unnamed/part_006: the
default auth handler with i18n, header stripping and security headers) -/

/-- Supported locales (`const locales = ['es', 'en']`). -/
def locales : List String := ["es", "en"]

/-- Default locale (`const defaultLocale = 'es'`). -/
def defaultLocale : String := "es"

/-- Public (auth) routes of the middleware. -/
def publicRoutes : List String :=
  ["/auth/signin", "/auth/signup", "/auth/forgot-password",
   "/auth/reset-password"]

/-- An incoming request as seen by the middleware: its header list, its
URL pathname, and whether `request.auth` is set. -/
structure MwRequest where
  headers : List (String × String)
  pathname : String
  isAuthenticated : Bool
deriving DecidableEq

/-- The middleware's observable outcome.  `redirect` carries the target
path; `next` carries the request headers the downstream handler receives
(`NextResponse.next()` with no argument forwards the original request)
and the response headers set on the returned response. -/
inductive MwAction where
  | redirect (target : String)
  | next (forwardedHeaders : List (String × String))
         (responseHeaders : List (String × String))
deriving DecidableEq

/-- Response headers carried by a middleware outcome; a redirect response
is returned without any of the security headers being set on it. -/
def MwAction.responseHeadersOf : MwAction → List (String × String)
  | .redirect _ => []
  | .next _ rs => rs

/-- `headers.delete(name)`: removes every entry with that name (the
middleware only deletes lowercase names and our inputs are lowercase, so
exact-name matching coincides with the case-insensitive Headers API). -/
def deleteHeader (hs : List (String × String)) (name : String) :
    List (String × String) :=
  hs.filter (fun h => h.1 ≠ name)

/-- Lines 62-64 of the middleware: clone the inbound headers and delete
`x-middleware-subrequest` and `x-forwarded-middleware`.  In the source the
result only flows into the local `cleanRequest`, which is never used
afterwards. -/
def stripDangerousHeaders (hs : List (String × String)) :
    List (String × String) :=
  deleteHeader (deleteHeader hs "x-middleware-subrequest")
    "x-forwarded-middleware"

/-- `getLocale(request)`: the source ignores the request and returns the
default locale. -/
def getLocale (_req : MwRequest) : String := defaultLocale

/-- JavaScript `pathname.split('/')` (splitting on every separator,
keeping empty segments). -/
def jsSplitSlash (p : String) : List String :=
  (p.data.splitOn '/').map (fun l => String.mk l)

/-- `pathname.split('/')[1]`, with the out-of-bounds `undefined` of
JavaScript rendered as `""` (it is only ever compared against the locale
labels, for which the two behave identically). -/
def secondSegment (p : String) : String :=
  (jsSplitSlash p).getD 1 ""

/-- `pathnameHasLocale`: some supported locale `l` satisfies
`pathname.startsWith('/l/') || pathname === '/l'`. -/
def pathnameHasLocale (p : String) : Bool :=
  locales.any (fun l => strStartsWith p ("/" ++ l ++ "/") || p == "/" ++ l)

/-- `getPathnameWithoutLocale` of the middleware. -/
def getPathnameWithoutLocale (pathname : String) : String :=
  let segments := jsSplitSlash pathname
  if locales.contains (segments.getD 1 "") then
    "/" ++ String.intercalate "/" (segments.drop 2)
  else pathname

/-- The locale-redirection step of the middleware (lines 78-91): when the
pathname lacks a supported locale prefix, redirect to the same path
prefixed with `getLocale(request)` (the detected locale; always the
default here). -/
def localeRedirect (req : MwRequest) : Option String :=
  if pathnameHasLocale req.pathname then none
  else some ("/" ++ getLocale req ++ req.pathname)

/-- The five security headers set on the pass-through response
(middleware lines 121-125), in source order. -/
def securityHeaders : List (String × String) :=
  [("X-Frame-Options", "DENY"),
   ("X-Content-Type-Options", "nosniff"),
   ("Referrer-Policy", "strict-origin-when-cross-origin"),
   ("X-XSS-Protection", "1; mode=block"),
   ("Strict-Transport-Security",
    "max-age=31536000; includeSubDomains; preload")]

/-- The post-locale phase of the middleware (lines 94-133), with the
current locale already computed: optimistic auth redirects, then the
pass-through response.  `NextResponse.next()` is called with no request
override, so the downstream handler receives the *original* request
headers; the response gets the five security headers (the final
`response.headers.delete` calls remove two names that are never among
them). -/
def authPhase (req : MwRequest) (currentLocale : String) : MwAction :=
  let pathnameWithoutLocale := getPathnameWithoutLocale req.pathname
  let isPublicRoute :=
    publicRoutes.any (fun route => strStartsWith pathnameWithoutLocale route)
  if !isPublicRoute && !req.isAuthenticated then
    .redirect ("/" ++ currentLocale ++ "/auth/signin?callbackUrl=" ++
      req.pathname)
  else if isPublicRoute && req.isAuthenticated then
    .redirect ("/" ++ currentLocale ++ "/dashboard")
  else
    .next req.headers
      (deleteHeader
        (deleteHeader securityHeaders "x-middleware-subrequest")
        "x-forwarded-middleware")

/-- The default middleware (src/unnamed part, lines 56-134).  It computes
the stripped header list into `cleanRequest` (a dead local, reproduced
here), then performs locale redirection and the auth phase. -/
def middleware (req : MwRequest) : MwAction :=
  let _cleanRequestHeaders := stripDangerousHeaders req.headers
  let currentLocale :=
    if pathnameHasLocale req.pathname then secondSegment req.pathname
    else getLocale req
  match localeRedirect req with
  | some target => .redirect target
  | none => authPhase req currentLocale

/-! ### Concrete fixtures used in the evaluation witnesses -/

/-- The empty rate-limit store. -/
def emptyStore : RLStore := fun _ => none

/-- A store in which `user@example.com` has already used up its window:
5 attempts counted, window resets at time 100. -/
def exhaustedStore : RLStore :=
  fun k => if k = rlKey "user@example.com" then some ⟨5, 100⟩ else none

/-- An environment with every variable undefined. -/
def noEnv : ProcEnv := ⟨none, none, none, none, none, none, none, none, none⟩

/-- A session for user `u9`. -/
def someSession : Option AuthSession :=
  some ⟨some ⟨some "u9", "u9@example.com", "ADMIN"⟩⟩

/-- A stored identity for `known@example.com` with password hash `h1`. -/
def knownUser : DbUser :=
  ⟨"u1", "known@example.com", some "Alice", some "h1", "BASIC"⟩

/-! ### Helper lemmas -/

theorem roleHierarchy_roleLabel (a : Role) :
    roleHierarchy (roleLabel a) = some (roleRank a) := by
  cases a <;> rfl

theorem checkRateLimit_inWindow (id : String) (now : Nat) (s : RLStore)
    (c r : Nat) (h : s (rlKey id) = some ⟨c, r⟩) (hw : now ≤ r) :
    checkRateLimit id now s =
      (⟨decide (c + 1 ≤ MAX_ATTEMPTS), MAX_ATTEMPTS - (c + 1), r⟩,
       fun k => if k = rlKey id then some ⟨c + 1, r⟩ else s k) := by
  simp [checkRateLimit, h, Nat.not_lt.mpr hw]

theorem checkRateLimit_fresh (id : String) (now : Nat) (s : RLStore)
    (h : s (rlKey id) = none) :
    checkRateLimit id now s =
      (⟨true, MAX_ATTEMPTS - 1, now + RATE_LIMIT_WINDOW⟩,
       fun k => if k = rlKey id then some ⟨1, now + RATE_LIMIT_WINDOW⟩
                else s k) := by
  simp [checkRateLimit, h, MAX_ATTEMPTS]

theorem checkRateLimit_expired (id : String) (now : Nat) (s : RLStore)
    (c r : Nat) (h : s (rlKey id) = some ⟨c, r⟩) (hw : r < now) :
    checkRateLimit id now s =
      (⟨true, MAX_ATTEMPTS - 1, now + RATE_LIMIT_WINDOW⟩,
       fun k => if k = rlKey id then some ⟨1, now + RATE_LIMIT_WINDOW⟩
                else s k) := by
  simp [checkRateLimit, h, hw, MAX_ATTEMPTS]

theorem rateLimitRun_spec (id : String) (ts : List Nat) :
    ∀ (s : RLStore) (c r : Nat), s (rlKey id) = some ⟨c, r⟩ →
    (∀ t ∈ ts, t ≤ r) →
    (rateLimitRun id ts s).1 =
      (List.range ts.length).map
        (fun i => ⟨decide (c + i + 1 ≤ MAX_ATTEMPTS),
                   MAX_ATTEMPTS - (c + i + 1), r⟩) ∧
    (rateLimitRun id ts s).2 (rlKey id) = some ⟨c + ts.length, r⟩ := by
  induction ts with
  | nil =>
      intro s c r h _
      exact ⟨rfl, by simpa [rateLimitRun] using h⟩
  | cons t ts ih =>
      intro s c r h hw
      have ht : t ≤ r := hw t (by simp)
      have hstep := checkRateLimit_inWindow id t s c r h ht
      have hkey : (checkRateLimit id t s).2 (rlKey id) = some ⟨c + 1, r⟩ := by
        rw [hstep]
        simp
      have hrec := ih (checkRateLimit id t s).2 (c + 1) r hkey
        (fun t' ht' => hw t' (by simp [ht']))
      refine ⟨?_, ?_⟩
      · show (checkRateLimit id t s).1 :: _ = _
        rw [hrec.1, List.length_cons, List.range_succ_eq_map, List.map_cons,
          List.map_map, hstep]
        refine congrArg₂ _ (by norm_num) ?_
        refine List.map_congr_left (fun i _ => ?_)
        have hsum : c + 1 + i + 1 = c + (Nat.succ i) + 1 := by omega
        simp [Function.comp, hsum]
      · show (rateLimitRun id ts (checkRateLimit id t s).2).2 (rlKey id) = _
        rw [hrec.2, List.length_cons]
        exact congrArg some (by simp [Nat.add_comm, Nat.add_assoc, Nat.add_left_comm])

theorem getD_map_range {β : Type} (f : Nat → β) (n i : Nat) (d : β)
    (h : i < n) : ((List.range n).map f).getD i d = f i := by
  rw [List.getD_eq_getElem?_getD, List.getElem?_map, List.getElem?_range h]
  rfl

/-! ### Claim theorems -/

/-- C1: for every session role `a` and required role `b` from the six-label
set, `requireRole b` on a resolved session with role `a` returns true iff
`rank a ≥ rank b`; when `rank a < rank b`, or when the session role is not
a recognised label, it redirects to `/unauthorized` instead of returning. -/
theorem requireRole_rank_gate (a b : Role) (s : String)
    (hs : roleHierarchy s = none) :
    (requireRole (roleLabel a) b = .ok ↔ roleRank b ≤ roleRank a) ∧
    (roleRank a < roleRank b →
      requireRole (roleLabel a) b = .redirect "/unauthorized") ∧
    requireRole s b = .redirect "/unauthorized" := by
  refine ⟨?_, ?_, ?_⟩
  · cases a <;> cases b <;> decide
  · cases a <;> cases b <;> decide
  · unfold requireRole
    rw [hs]

theorem requireRole_rank_gate_witness :
    roleHierarchy "MODERATOR" = none ∧
    ((requireRole (roleLabel .ADMIN) .PREMIUM = .ok ↔
        roleRank .PREMIUM ≤ roleRank .ADMIN) ∧
     (roleRank .ADMIN < roleRank .PREMIUM →
        requireRole (roleLabel .ADMIN) .PREMIUM = .redirect "/unauthorized") ∧
     requireRole "MODERATOR" .PREMIUM = .redirect "/unauthorized") :=
  ⟨by decide, requireRole_rank_gate .ADMIN .PREMIUM "MODERATOR" (by decide)⟩

/-- C2 (amended): the development bypass activates iff all six guard
conditions hold simultaneously — `NODE_ENV` is exactly `development`, the
opt-in flag equals `true`, the storage URL contains `localhost`, and each
of the three hosting-platform markers (Vercel, Railway, Heroku) is absent.
Consequently flipping any single condition deactivates the bypass. -/
theorem isDevelopmentBypass_iff_guards (e : ProcEnv) :
    isDevelopmentBypass e = true ↔
      (e.nodeEnv = some "development" ∧ e.devDalBypass = some "true" ∧
       optIncludes e.databaseUrl "localhost" = true ∧
       envTruthy e.vercelEnv = false ∧
       envTruthy e.railwayEnvironment = false ∧
       envTruthy e.herokuAppName = false) := by
  simp [isDevelopmentBypass, Bool.and_eq_true, Bool.not_eq_true', and_assoc]

/-- C2 (counterexample to the count of guard conditions): the guard is a
conjunction of six — not five — independently flippable conditions.  From
a base environment on which the bypass is active, six modifications, each
changing exactly one of the six scrutinised environment variables, each
deactivate the bypass. -/
theorem isDevelopmentBypass_six_guards :
    isDevelopmentBypass ⟨some "development", some "true",
      some "postgresql://localhost:5432/app", none, none, none,
      none, none, none⟩ = true ∧
    isDevelopmentBypass ⟨some "production", some "true",
      some "postgresql://localhost:5432/app", none, none, none,
      none, none, none⟩ = false ∧
    isDevelopmentBypass ⟨some "development", some "false",
      some "postgresql://localhost:5432/app", none, none, none,
      none, none, none⟩ = false ∧
    isDevelopmentBypass ⟨some "development", some "true",
      some "postgresql://db.example.com:5432/app", none, none, none,
      none, none, none⟩ = false ∧
    isDevelopmentBypass ⟨some "development", some "true",
      some "postgresql://localhost:5432/app", some "production", none, none,
      none, none, none⟩ = false ∧
    isDevelopmentBypass ⟨some "development", some "true",
      some "postgresql://localhost:5432/app", none, some "production", none,
      none, none, none⟩ = false ∧
    isDevelopmentBypass ⟨some "development", some "true",
      some "postgresql://localhost:5432/app", none, none, some "my-app",
      none, none, none⟩ = false := by
  decide

/-- C3: starting from a store with no entry for the identifier, six calls
whose times all lie within the first call's 15-minute window produce
`allowed = true` for the first five and `allowed = false, remaining = 0`
for the sixth; and whenever the current time exceeds an entry's reset
timestamp, the counter restarts from 0, so that call is treated as the
first attempt of a fresh window (count 1, allowed, remaining 4). -/
theorem checkRateLimit_five_per_window (id : String) (s : RLStore)
    (t1 t2 t3 t4 t5 t6 : Nat)
    (h0 : s (rlKey id) = none)
    (h2 : t2 ≤ t1 + RATE_LIMIT_WINDOW) (h3 : t3 ≤ t1 + RATE_LIMIT_WINDOW)
    (h4 : t4 ≤ t1 + RATE_LIMIT_WINDOW) (h5 : t5 ≤ t1 + RATE_LIMIT_WINDOW)
    (h6 : t6 ≤ t1 + RATE_LIMIT_WINDOW) :
    (rateLimitRun id [t1, t2, t3, t4, t5, t6] s).1 =
      [⟨true, 4, t1 + RATE_LIMIT_WINDOW⟩, ⟨true, 3, t1 + RATE_LIMIT_WINDOW⟩,
       ⟨true, 2, t1 + RATE_LIMIT_WINDOW⟩, ⟨true, 1, t1 + RATE_LIMIT_WINDOW⟩,
       ⟨true, 0, t1 + RATE_LIMIT_WINDOW⟩,
       ⟨false, 0, t1 + RATE_LIMIT_WINDOW⟩] ∧
    (∀ (s' : RLStore) (c r now : Nat),
      s' (rlKey id) = some ⟨c, r⟩ → r < now →
      checkRateLimit id now s' =
        (⟨true, 4, now + RATE_LIMIT_WINDOW⟩,
         fun k => if k = rlKey id then some ⟨1, now + RATE_LIMIT_WINDOW⟩
                  else s' k)) := by
  constructor
  · have hstep := checkRateLimit_fresh id t1 s h0
    have hkey : (checkRateLimit id t1 s).2 (rlKey id) =
        some ⟨1, t1 + RATE_LIMIT_WINDOW⟩ := by
      rw [hstep]
      simp
    have hrun := rateLimitRun_spec id [t2, t3, t4, t5, t6]
      (checkRateLimit id t1 s).2 1 (t1 + RATE_LIMIT_WINDOW) hkey
      (by intro t ht; simp at ht
          rcases ht with h | h | h | h | h <;> omega)
    show (checkRateLimit id t1 s).1 :: _ = _
    rw [hrun.1, hstep]
    norm_num [List.range_succ, MAX_ATTEMPTS]
  · intro s' c r now h hw
    have := checkRateLimit_expired id now s' c r h hw
    simpa [MAX_ATTEMPTS] using this

theorem checkRateLimit_five_per_window_witness :
    emptyStore (rlKey "user@example.com") = none ∧
    ((1:Nat) ≤ 0 + RATE_LIMIT_WINDOW ∧ (2:Nat) ≤ 0 + RATE_LIMIT_WINDOW ∧
     (3:Nat) ≤ 0 + RATE_LIMIT_WINDOW ∧ (4:Nat) ≤ 0 + RATE_LIMIT_WINDOW ∧
     (5:Nat) ≤ 0 + RATE_LIMIT_WINDOW) ∧
    ((rateLimitRun "user@example.com" [0, 1, 2, 3, 4, 5] emptyStore).1 =
      [⟨true, 4, 0 + RATE_LIMIT_WINDOW⟩, ⟨true, 3, 0 + RATE_LIMIT_WINDOW⟩,
       ⟨true, 2, 0 + RATE_LIMIT_WINDOW⟩, ⟨true, 1, 0 + RATE_LIMIT_WINDOW⟩,
       ⟨true, 0, 0 + RATE_LIMIT_WINDOW⟩,
       ⟨false, 0, 0 + RATE_LIMIT_WINDOW⟩] ∧
     (∀ (s' : RLStore) (c r now : Nat),
       s' (rlKey "user@example.com") = some ⟨c, r⟩ → r < now →
       checkRateLimit "user@example.com" now s' =
         (⟨true, 4, now + RATE_LIMIT_WINDOW⟩,
          fun k => if k = rlKey "user@example.com" then
                     some ⟨1, now + RATE_LIMIT_WINDOW⟩
                   else s' k))) :=
  ⟨rfl, ⟨by decide, by decide, by decide, by decide, by decide⟩,
   checkRateLimit_five_per_window "user@example.com" emptyStore 0 1 2 3 4 5
     rfl (by decide) (by decide) (by decide) (by decide) (by decide)⟩

/-- C4: for a well-formed input, the credential verifier returns the same
failure outcome — `null` — whether the identifier matches no stored record
or the record exists but the supplied password fails the hash comparison;
the two failure causes are indistinguishable to the caller. -/
theorem authorize_uniform_failure
    (safeParse : Credentials → Option (String × String))
    (bcryptCompare : String → String → Bool)
    (db1 db2 : String → Option DbUser)
    (now : Nat) (store : RLStore) (creds : Credentials)
    (email pw hash : String) (u : DbUser)
    (hv : safeParse creds = some (email, pw))
    (h1 : db1 email = none)
    (h2 : db2 email = some u) (hu : u.password = some hash) (hne : hash ≠ "")
    (hc : bcryptCompare pw hash = false) :
    (authorize safeParse bcryptCompare db1 now store creds).1 = none ∧
    (authorize safeParse bcryptCompare db2 now store creds).1 = none := by
  unfold authorize
  rw [hv]
  by_cases hrl : (checkRateLimit email now store).1.allowed <;>
    simp [hrl, h1, h2, hu, hne, hc]

theorem authorize_uniform_failure_witness :
    (fun (c : Credentials) => some (c.email, c.password))
        ⟨"known@example.com", "pw"⟩ =
      some ("known@example.com", "pw") ∧
    (fun (_ : String) => (none : Option DbUser)) "known@example.com" = none ∧
    (fun (e : String) =>
        if e = "known@example.com" then some knownUser else none)
        "known@example.com" = some knownUser ∧
    knownUser.password = some "h1" ∧ "h1" ≠ "" ∧
    (fun (_ _ : String) => false) "pw" "h1" = false ∧
    ((authorize (fun c => some (c.email, c.password)) (fun _ _ => false)
        (fun _ => none) 0 emptyStore ⟨"known@example.com", "pw"⟩).1 = none ∧
     (authorize (fun c => some (c.email, c.password)) (fun _ _ => false)
        (fun e => if e = "known@example.com" then some knownUser else none)
        0 emptyStore ⟨"known@example.com", "pw"⟩).1 = none) :=
  ⟨rfl, rfl, by decide, rfl, by decide, rfl,
   authorize_uniform_failure (fun c => some (c.email, c.password))
     (fun _ _ => false) (fun _ => none)
     (fun e => if e = "known@example.com" then some knownUser else none)
     0 emptyStore ⟨"known@example.com", "pw"⟩ "known@example.com" "pw" "h1"
     knownUser rfl rfl (by decide) rfl (by decide) rfl⟩

/-- C5: `getSecureData` never invokes its fetcher unless `verifySession`
resolved successfully: its outcome depends on the fetcher only through the
fetcher's value at the resolved subject id (so two fetchers agreeing there
are indistinguishable, and under a failed resolution any two fetchers
are); a resolver redirect short-circuits the call, and on success the
outcome is the wrapped value of the fetcher at the resolved `userId`. -/
theorem getSecureData_resolver_first {α : Type} (e : ProcEnv)
    (a : Option AuthSession) (f g : String → Except String α)
    (h : ∀ s, verifySession e a = .ok s → f s.userId = g s.userId) :
    getSecureData e a f = getSecureData e a g ∧
    (∀ p, verifySession e a = .error p →
      getSecureData e a f = .error (.redirectTo p)) ∧
    (∀ s, verifySession e a = .ok s →
      getSecureData e a f = secureWrap (f s.userId)) := by
  refine ⟨?_, ?_, ?_⟩
  · cases hv : verifySession e a with
    | error p => simp [getSecureData, hv]
    | ok s => simp [getSecureData, hv, h s hv]
  · intro p hp
    simp [getSecureData, hp]
  · intro s hs
    simp only [getSecureData, hs]
    cases f s.userId <;> simp [secureWrap]

theorem getSecureData_resolver_first_witness :
    (∀ s, verifySession noEnv someSession = .ok s →
      (fun (_ : String) => (Except.ok 1 : Except String Nat)) s.userId =
      (fun (_ : String) => (Except.ok 1 : Except String Nat)) s.userId) ∧
    (getSecureData noEnv someSession (fun _ => (.ok 1 : Except String Nat)) =
       getSecureData noEnv someSession
         (fun _ => (.ok 1 : Except String Nat)) ∧
     (∀ p, verifySession noEnv someSession = .error p →
       getSecureData noEnv someSession
         (fun _ => (.ok 1 : Except String Nat)) = .error (.redirectTo p)) ∧
     (∀ s, verifySession noEnv someSession = .ok s →
       getSecureData noEnv someSession
           (fun _ => (.ok 1 : Except String Nat)) =
         secureWrap ((fun _ => (.ok 1 : Except String Nat)) s.userId))) :=
  ⟨fun _ _ => rfl,
   getSecureData_resolver_first noEnv someSession
     (fun _ => (.ok 1 : Except String Nat))
     (fun _ => (.ok 1 : Except String Nat)) (fun _ _ => rfl)⟩

/-- C6: if the fetcher passed to `getSecureData` throws any error, the
call throws the single generic `Data access denied` error in its place;
the original error value never reaches the caller. -/
theorem getSecureData_generic_error {α : Type} (e : ProcEnv)
    (a : Option AuthSession) (f : String → Except String α)
    (s : SessionRecord) (msg : String)
    (hs : verifySession e a = .ok s) (hf : f s.userId = .error msg) :
    getSecureData e a f = .error (.thrown "Data access denied") := by
  simp [getSecureData, hs, hf]

theorem getSecureData_generic_error_witness :
    verifySession noEnv someSession =
      .ok ⟨"u9", "u9@example.com", "ADMIN"⟩ ∧
    (fun (_ : String) => (Except.error "boom" : Except String Nat))
      (SessionRecord.userId ⟨"u9", "u9@example.com", "ADMIN"⟩) =
      .error "boom" ∧
    getSecureData noEnv someSession
        (fun _ => (.error "boom" : Except String Nat)) =
      .error (.thrown "Data access denied") :=
  ⟨rfl, rfl,
   getSecureData_generic_error noEnv someSession
     (fun _ => (.error "boom" : Except String Nat))
     ⟨"u9", "u9@example.com", "ADMIN"⟩ "boom" rfl rfl⟩

theorem strStartsWith_slash_data (p : String)
    (h : strStartsWith p "/" = true) : ∃ t, p.data = '/' :: t := by
  unfold strStartsWith at h
  cases hp : p.data with
  | nil =>
      rw [hp] at h
      exact absurd h (by decide)
  | cons a t =>
      rw [hp] at h
      have h' : (('/' == a) && List.isPrefixOf ([] : List Char) t) = true := h
      rw [Bool.and_eq_true, beq_iff_eq] at h'
      exact ⟨t, by rw [← h'.1]⟩

theorem pathnameHasLocale_prepend (p : String)
    (h : strStartsWith p "/" = true) :
    pathnameHasLocale ("/" ++ defaultLocale ++ p) = true := by
  obtain ⟨t, hp⟩ := strStartsWith_slash_data p h
  simp only [pathnameHasLocale, locales, defaultLocale, List.any_cons,
    List.any_nil, Bool.or_eq_true, strStartsWith]
  left
  left
  have e2 : ("/" ++ "es" ++ p).data = '/' :: 'e' :: 's' :: p.data := by
    rw [String.data_append]
    rfl
  have e1 : ("/" ++ "es" ++ "/").data = ['/', 'e', 's', '/'] := by decide
  rw [e2, hp, e1]
  simp [List.isPrefixOf]

theorem authPhase_next_headers (req : MwRequest) (cl : String)
    (fwd rsp : List (String × String))
    (h : authPhase req cl = .next fwd rsp) : rsp = securityHeaders := by
  have hsec : deleteHeader (deleteHeader securityHeaders
      "x-middleware-subrequest") "x-forwarded-middleware" =
      securityHeaders := by decide
  simp only [authPhase] at h
  split_ifs at h
  rw [hsec] at h
  exact ((MwAction.next.injEq _ _ _ _).mp h).2.symm

/-- C7 (evaluation at the failing input): the middleware computes a
header list with `x-middleware-subrequest` and `x-forwarded-middleware`
removed, but that list only flows into the unused `cleanRequest`;
`NextResponse.next()` forwards the original request, so on the
pass-through path the downstream handler still observes the dangerous
header that the stripped list no longer contains. -/
theorem middleware_forwards_dangerous_header :
    middleware ⟨[("x-middleware-subrequest", "1"), ("host", "example.com")],
      "/es/dashboard", true⟩ =
      .next [("x-middleware-subrequest", "1"), ("host", "example.com")]
        securityHeaders ∧
    ("x-middleware-subrequest", "1") ∉
      stripDangerousHeaders
        [("x-middleware-subrequest", "1"), ("host", "example.com")] := by
  exact ⟨by decide, by decide⟩

/-- C8: a request whose path lacks a supported locale prefix is redirected
exactly once, to the same path prefixed with the default locale; the
redirect target carries a supported prefix, so it would not be
locale-redirected again; and a request already carrying a supported locale
prefix is never redirected by the locale step (its outcome is decided by
the auth phase instead). -/
theorem middleware_locale_redirection (req : MwRequest)
    (h : strStartsWith req.pathname "/" = true) :
    (pathnameHasLocale req.pathname = false →
      middleware req = .redirect ("/" ++ defaultLocale ++ req.pathname) ∧
      pathnameHasLocale ("/" ++ defaultLocale ++ req.pathname) = true ∧
      localeRedirect ⟨req.headers, "/" ++ defaultLocale ++ req.pathname,
        req.isAuthenticated⟩ = none) ∧
    (pathnameHasLocale req.pathname = true →
      localeRedirect req = none ∧
      middleware req = authPhase req (secondSegment req.pathname)) := by
  constructor
  · intro hno
    have htarget := pathnameHasLocale_prepend req.pathname h
    refine ⟨?_, htarget, ?_⟩
    · simp [middleware, localeRedirect, hno, getLocale]
    · simp [localeRedirect, htarget]
  · intro hyes
    refine ⟨by simp [localeRedirect, hyes], ?_⟩
    simp [middleware, localeRedirect, hyes]

theorem middleware_locale_redirection_witness :
    strStartsWith "/dashboard" "/" = true ∧
    ((pathnameHasLocale "/dashboard" = false →
      middleware ⟨[], "/dashboard", false⟩ =
        .redirect ("/" ++ defaultLocale ++ "/dashboard") ∧
      pathnameHasLocale ("/" ++ defaultLocale ++ "/dashboard") = true ∧
      localeRedirect ⟨[], "/" ++ defaultLocale ++ "/dashboard", false⟩ =
        none) ∧
     (pathnameHasLocale "/dashboard" = true →
      localeRedirect ⟨[], "/dashboard", false⟩ = none ∧
      middleware ⟨[], "/dashboard", false⟩ =
        authPhase ⟨[], "/dashboard", false⟩ (secondSegment "/dashboard"))) :=
  ⟨by decide, middleware_locale_redirection ⟨[], "/dashboard", false⟩
    (by decide)⟩

/-- C9 (amended): every pass-through response built by the middleware
carries exactly the five security headers (frame options, content type
options, referrer policy, XSS protection, HSTS); redirect responses are
returned before those headers are set and so do not carry them. -/
theorem middleware_next_security_headers (req : MwRequest)
    (fwd rsp : List (String × String))
    (h : middleware req = .next fwd rsp) :
    rsp = securityHeaders := by
  by_cases hl : pathnameHasLocale req.pathname
  · have hmw : middleware req = authPhase req (secondSegment req.pathname) := by
      simp [middleware, localeRedirect, hl]
    exact authPhase_next_headers req (secondSegment req.pathname) fwd rsp
      (hmw ▸ h)
  · have hmw : middleware req =
        .redirect ("/" ++ getLocale req ++ req.pathname) := by
      simp [middleware, localeRedirect, hl]
    rw [hmw] at h
    exact absurd h (by simp)

theorem middleware_next_security_headers_witness :
    middleware ⟨[("host", "example.com")], "/es/dashboard", true⟩ =
      .next [("host", "example.com")] securityHeaders ∧
    securityHeaders = securityHeaders :=
  ⟨by decide,
   middleware_next_security_headers
     ⟨[("host", "example.com")], "/es/dashboard", true⟩
     [("host", "example.com")] securityHeaders (by decide)⟩

/-- C9 (counterexample to "every response"): a locale redirect is a
response produced by the middleware, and it carries none of the five
security headers — not even `X-Frame-Options`. -/
theorem middleware_redirect_no_security_headers :
    middleware ⟨[], "/dashboard", false⟩ = .redirect "/es/dashboard" ∧
    (middleware ⟨[], "/dashboard", false⟩).responseHeadersOf = [] ∧
    ("X-Frame-Options", "DENY") ∉
      (middleware ⟨[], "/dashboard", false⟩).responseHeadersOf := by
  exact ⟨by decide, by decide, by decide⟩

/-- C10: within an un-expired window, every `checkRateLimit` call —
including rejected ones — increments the stored counter (after the run the
count has grown by the number of calls); hence once a call returns
`allowed = false`, every later call of the run also returns
`allowed = false`, and the returned `remaining` never increases. -/
theorem checkRateLimit_monotone_window (id : String) (s : RLStore)
    (c r : Nat) (ts : List Nat)
    (h : s (rlKey id) = some ⟨c, r⟩) (hw : ∀ t ∈ ts, t ≤ r) :
    (rateLimitRun id ts s).2 (rlKey id) = some ⟨c + ts.length, r⟩ ∧
    (∀ i j : Nat, i ≤ j → j < ts.length →
      (((rateLimitRun id ts s).1.getD i ⟨true, 0, 0⟩).allowed = false →
        ((rateLimitRun id ts s).1.getD j ⟨true, 0, 0⟩).allowed = false) ∧
      ((rateLimitRun id ts s).1.getD j ⟨true, 0, 0⟩).remaining ≤
        ((rateLimitRun id ts s).1.getD i ⟨true, 0, 0⟩).remaining) := by
  have hrun := rateLimitRun_spec id ts s c r h hw
  refine ⟨hrun.2, ?_⟩
  intro i j hij hj
  have hi : i < ts.length := lt_of_le_of_lt hij hj
  rw [hrun.1, getD_map_range _ _ _ _ hi, getD_map_range _ _ _ _ hj]
  simp only [MAX_ATTEMPTS, decide_eq_false_iff_not, Nat.not_le]
  omega

theorem checkRateLimit_monotone_window_witness :
    exhaustedStore (rlKey "user@example.com") = some ⟨5, 100⟩ ∧
    (∀ t ∈ [10, 20], t ≤ 100) ∧
    ((rateLimitRun "user@example.com" [10, 20] exhaustedStore).2
        (rlKey "user@example.com") = some ⟨5 + [10, 20].length, 100⟩ ∧
     (∀ i j : Nat, i ≤ j → j < [10, 20].length →
      (((rateLimitRun "user@example.com" [10, 20] exhaustedStore).1.getD i
          ⟨true, 0, 0⟩).allowed = false →
        ((rateLimitRun "user@example.com" [10, 20] exhaustedStore).1.getD j
          ⟨true, 0, 0⟩).allowed = false) ∧
      ((rateLimitRun "user@example.com" [10, 20] exhaustedStore).1.getD j
          ⟨true, 0, 0⟩).remaining ≤
        ((rateLimitRun "user@example.com" [10, 20] exhaustedStore).1.getD i
          ⟨true, 0, 0⟩).remaining)) :=
  ⟨by decide, by decide,
   checkRateLimit_monotone_window "user@example.com" exhaustedStore 5 100
     [10, 20] (by decide) (by decide)⟩
